import Mathlib

/-
Verification of the script-to-audio converter (src/src-tauri/src/script_to_audio.rs).

Embedding conventions:
* `f32`/`f64` arithmetic is modelled over exact rationals `ℚ`; a decimal
  literal of the source (`0.25`, `0.85`, ...) is embedded as the exact
  rational it denotes.  Transcendental `f32` functions (`sin`, `cos`) and the
  `f32` constants `2·π`, `π/4` are uninterpreted parameters (`FloatOracle`);
  for the one claim that is genuinely about the trigonometric panning law the
  gain computation is additionally modelled over `ℝ` with `Real.sin`/`Real.cos`.
* The special `f32` values (`NaN`, `±∞`) matter only for
  `AudioBuffer::silence`, whose argument is therefore modelled by the tiny
  type `F32`; Rust's saturating float-to-`usize` cast is `f32_to_usize`.
* Rust `usize`Arithmetic is `ℕ` (with saturating subtraction where the source
  relies on `saturating_sub`); out-of-range vector indexing, which panics in
  Rust, is modelled by total `List.getD`/`List.set` access, and theorems that
  would otherwise overclaim carry explicit well-formedness hypotheses
  (all channels of a buffer have equal length, at least one channel).
* Everything external to the file (the neural TTS engine, the filesystem and
  WAV decoding behind sound-effect lookup, `str::parse`, serde JSON parsing)
  is an oracle parameter collected in `Env`; the tree walker `process_node`
  is embedded with explicit state passing and a structural fuel argument
  (the Rust recursion is bounded by the tree size; fuel only adds an
  `error` outcome when exhausted, which no theorem identifies with success).
-/

set_option maxRecDepth 4000

abbrev Sample := ℚ

/-- `SAMPLE_RATE` constant of the source (line 24). -/
def SAMPLE_RATE : ℕ := 24000

/-- usize::MAX on the 64-bit targets the application ships on. -/
def USIZE_MAX : ℕ := 2 ^ 64 - 1

/-- Rust `f32::clamp(lo, hi)` on finite values: lo if below, hi if above. -/
def clampQ (x lo hi : ℚ) : ℚ :=
  if x < lo then lo else if x > hi then hi else x

/-- Rust saturating cast `as usize` from a finite float value: truncation
toward zero, negatives collapse to 0, values beyond `usize::MAX` saturate. -/
def f32_to_usize (q : ℚ) : ℕ :=
  min (Int.toNat ⌊q⌋) USIZE_MAX

/-- The `f32` values relevant to `AudioBuffer::silence`: finite values are
carried exactly, plus the three special values. -/
inductive F32 where
  | num (q : ℚ)
  | nan
  | inf
  | neginf
deriving DecidableEq

/-- Multiplication of an `f32` by a (cast) natural sample rate,
IEEE-754 style: `NaN` is absorbing and `±∞ * 0 = NaN`. -/
def f32_mul_nat (d : F32) (n : ℕ) : F32 :=
  match d with
  | F32.num q => F32.num (q * n)
  | F32.nan => F32.nan
  | F32.inf => if n = 0 then F32.nan else F32.inf
  | F32.neginf => if n = 0 then F32.nan else F32.neginf

/-- Rust `as usize` on a possibly non-finite `f32`: `NaN` and everything
at or below zero go to 0, `+∞` saturates at `usize::MAX`. -/
def f32_as_usize : F32 → ℕ
  | F32.num q => min (Int.toNat ⌊q⌋) USIZE_MAX
  | F32.nan => 0
  | F32.inf => USIZE_MAX
  | F32.neginf => 0

-- ============================================================================
-- EffectOptions (source lines 95-150) and presets (lines 152-246)
-- ============================================================================

/-- `EffectOptions` (source lines 95-108); `repeats` is `u32` in the source. -/
structure EffectOptions where
  delay : Option ℚ := none
  decay : Option ℚ := none
  repeats : Option ℕ := none
  hz : Option ℚ := none
  offset : Option ℚ := none
  amplitude : Option ℚ := none
  fade_ms : Option ℚ := none
  pan : Option ℚ := none
deriving DecidableEq

/-- `EffectOptions::default()` (derived `Default`: every field `None`). -/
def EffectOptions.default : EffectOptions := {}

/-- `EffectOptions::merge` (source lines 138-149): for every field,
`other`'s value wins when present, else `self`'s value. -/
def EffectOptions.merge (self other : EffectOptions) : EffectOptions :=
  { delay := other.delay.or self.delay
    decay := other.decay.or self.decay
    repeats := other.repeats.or self.repeats
    hz := other.hz.or self.hz
    offset := other.offset.or self.offset
    amplitude := other.amplitude.or self.amplitude
    fade_ms := other.fade_ms.or self.fade_ms
    pan := other.pan.or self.pan }

/-- `get_binaural_presets` (source lines 152-195), as an association list. -/
def get_binaural_presets : List (String × EffectOptions) :=
  [("delta", { hz := some 400, offset := some 2 }),
   ("theta", { hz := some 400, offset := some 6 }),
   ("alpha", { hz := some 400, offset := some 10 }),
   ("beta", { hz := some 400, offset := some 20 }),
   ("gamma", { hz := some 400, offset := some 40 })]

/-- `get_echo_presets` (source lines 197-227); `0.1 = 1/10` etc. -/
def get_echo_presets : List (String × EffectOptions) :=
  [("light", { delay := some (1/10), decay := some (3/10), repeats := some 2 }),
   ("medium", { delay := some (1/5), decay := some (1/2), repeats := some 3 }),
   ("heavy", { delay := some (1/5), decay := some (3/5), repeats := some 4 })]

/-- `get_pan_presets` (source lines 229-246). -/
def get_pan_presets : List (String × EffectOptions) :=
  [("left", { pan := some (-1) }),
   ("right", { pan := some 1 })]

-- ============================================================================
-- AudioBuffer core (source lines 252-580)
-- ============================================================================

/-- `AudioBuffer` (source lines 252-256): channels × samples plus a rate. -/
structure AudioBuffer where
  samples : List (List Sample)
  sample_rate : ℕ
deriving DecidableEq

/-- `AudioBuffer::new` (lines 259-264): `channels` channels of `length` zeros. -/
def AudioBuffer.new (channels length sample_rate : ℕ) : AudioBuffer :=
  ⟨List.replicate channels (List.replicate length 0), sample_rate⟩

/-- `AudioBuffer::from_mono` (lines 266-271). -/
def AudioBuffer.from_mono (data : List Sample) (sample_rate : ℕ) : AudioBuffer :=
  ⟨[data], sample_rate⟩

/-- `AudioBuffer::from_stereo` (lines 273-278). -/
def AudioBuffer.from_stereo (left right : List Sample) (sample_rate : ℕ) : AudioBuffer :=
  ⟨[left, right], sample_rate⟩

/-- `AudioBuffer::num_channels` (lines 280-282). -/
def AudioBuffer.num_channels (b : AudioBuffer) : ℕ := b.samples.length

/-- `AudioBuffer::length` (lines 284-286): first channel's length, else 0. -/
def AudioBuffer.length (b : AudioBuffer) : ℕ :=
  ((b.samples.head?).map List.length).getD 0

/-- `AudioBuffer::silence` (lines 297-300): `(duration_secs * rate) as usize`
zeros in one channel. -/
def AudioBuffer.silence (duration_secs : F32) (sample_rate : ℕ) : AudioBuffer :=
  AudioBuffer.new 1 (f32_as_usize (f32_mul_nat duration_secs sample_rate)) sample_rate

/-- `AudioBuffer::resample` (lines 544-579): per-channel linear interpolation;
the `f64` position arithmetic is carried exactly in `ℚ`, `as usize` on the
nonnegative position is `⌊·⌋`. -/
def AudioBuffer.resample (b : AudioBuffer) (target_sample_rate : ℕ) : AudioBuffer :=
  if b.sample_rate = target_sample_rate then b
  else
    let rposition : ℚ := (b.sample_rate : ℚ) / (target_sample_rate : ℚ)
    let new_length : ℕ := Int.toNat ⌈(b.length : ℚ) / rposition⌉
    let new_samples := b.samples.map (fun src =>
      (List.range new_length).map (fun i =>
        let src_pos : ℚ := (i : ℚ) * rposition
        let src_idx : ℕ := Int.toNat ⌊src_pos⌋
        let frac : ℚ := src_pos - (src_idx : ℚ)
        if src_idx + 1 < src.length then
          (src.getD src_idx 0) * (1 - frac) + (src.getD (src_idx + 1) 0) * frac
        else if src_idx < src.length then
          src.getD src_idx 0
        else 0))
    ⟨new_samples, target_sample_rate⟩

/-- Rust `iter().enumerate()` starting at index `i`. -/
def enumerate {α : Type} : ℕ → List α → List (ℕ × α)
  | _, [] => []
  | i, x :: xs => (i, x) :: enumerate (i + 1) xs

/-- The per-channel inner copy loop of `AudioBuffer::concat` (lines 338-340):
`dst[offset + i] = src[i]`. -/
def copy_at (dst src : List Sample) (offset : ℕ) : List Sample :=
  (enumerate 0 src).foldl (fun d p => d.set (offset + p.1) p.2) dst

/-- The per-buffer channel loop of `AudioBuffer::concat` (lines 334-341). -/
def concat_write (res : List (List Sample)) (buffer : AudioBuffer)
    (num_channels offset : ℕ) : List (List Sample) :=
  (List.range num_channels).foldl (fun r ch =>
    let src_ch := min ch (buffer.num_channels - 1)
    r.set ch (copy_at (r.getD ch []) (buffer.samples.getD src_ch []) offset)) res

/-- `AudioBuffer::concat` (lines 303-346): resample everything to the first
buffer's rate, take the max channel count, lay the buffers out back to back. -/
def AudioBuffer.concat (buffers : List AudioBuffer) : AudioBuffer :=
  match buffers with
  | [] => AudioBuffer.new 1 1 SAMPLE_RATE
  | b0 :: _ =>
    let target_sample_rate := b0.sample_rate
    let resampled := buffers.map (fun b =>
      if b.sample_rate ≠ target_sample_rate then b.resample target_sample_rate else b)
    let num_channels := ((resampled.map AudioBuffer.num_channels).max?).getD 1
    let total_length := (resampled.map AudioBuffer.length).sum
    let init := List.replicate num_channels (List.replicate total_length (0 : Sample))
    ⟨(resampled.foldl
        (fun p b => (concat_write p.1 b num_channels p.2, p.2 + b.length)) (init, 0)).1,
     target_sample_rate⟩

/-- The per-channel inner mixing loop of `AudioBuffer::merge` (lines 383-386):
`dst[i] = (dst[i] + src[i]).clamp(-1, 1)`. -/
def mix_channel (dst src : List Sample) : List Sample :=
  (enumerate 0 src).foldl (fun d p => d.set p.1 (clampQ (d.getD p.1 0 + p.2) (-1) 1)) dst

/-- The per-buffer channel loop of `AudioBuffer::merge` (lines 379-387). -/
def mix_buffer (res : List (List Sample)) (buffer : AudioBuffer)
    (num_channels : ℕ) : List (List Sample) :=
  (List.range num_channels).foldl (fun r ch =>
    let src_ch := min ch (buffer.num_channels - 1)
    r.set ch (mix_channel (r.getD ch []) (buffer.samples.getD src_ch []))) res

/-- `AudioBuffer::merge` (lines 349-391): same reconciliation as `concat`, but
samples at equal positions are summed and hard-clamped to `[-1, 1]`. -/
def AudioBuffer.merge (buffers : List AudioBuffer) : AudioBuffer :=
  match buffers with
  | [] => AudioBuffer.new 1 1 SAMPLE_RATE
  | b0 :: _ =>
    let target_sample_rate := b0.sample_rate
    let resampled := buffers.map (fun b =>
      if b.sample_rate ≠ target_sample_rate then b.resample target_sample_rate else b)
    let num_channels := ((resampled.map AudioBuffer.num_channels).max?).getD 1
    let max_length := ((resampled.map AudioBuffer.length).max?).getD 0
    let init := List.replicate num_channels (List.replicate max_length (0 : Sample))
    ⟨resampled.foldl (fun r b => mix_buffer r b num_channels) init, target_sample_rate⟩

/-- `AudioBuffer::to_mono` (lines 394-407): sample-wise mean over channels. -/
def AudioBuffer.to_mono (b : AudioBuffer) : List Sample :=
  let len := b.length
  let num_channels : ℚ := (b.num_channels : ℚ)
  b.samples.foldl
    (fun mono data =>
      (List.range len).foldl (fun m i => m.set i (m.getD i 0 + data.getD i 0 / num_channels)) mono)
    (List.replicate len 0)

-- ============================================================================
-- Effects (source lines 582-823)
-- ============================================================================

/-- The uninterpreted `f32` math library pieces: `sin`, `cos` and the float
approximations of `2π` (`std::f32::consts::PI * 2.0`) and `π/4`
(`std::f32::consts::FRAC_PI_4`). -/
structure FloatOracle where
  qsin : ℚ → ℚ
  qcos : ℚ → ℚ
  two_pi : ℚ
  frac_pi_4 : ℚ

/-- The original-copy loop of `apply_echo` (lines 601-604): `out[i] = in[i]`. -/
def copy_into (dst src : List Sample) : List Sample :=
  (enumerate 0 src).foldl (fun d p => d.set p.1 p.2) dst

/-- One delayed echo pass of `apply_echo` (lines 607-616):
`out[i + offset] += in[i] * attenuation` for in-range targets. -/
def add_echo (dst src : List Sample) (attenuation : ℚ) (offset : ℕ) : List Sample :=
  (enumerate 0 src).foldl
    (fun d p =>
      if p.1 + offset < d.length then d.set (p.1 + offset) (d.getD (p.1 + offset) 0 + p.2 * attenuation)
      else d)
    dst

/-- `apply_echo` (source lines 587-625): original plus `repeats` delayed copies
attenuated by `decay^r`, then hard-clamped; defaults `delay = 0.25`,
`decay = 0.6`, `repeats = 3`; `delay_samples = (delay * rate) as usize`. -/
def apply_echo (buffer : AudioBuffer) (options : EffectOptions) : AudioBuffer :=
  let sample_rate := buffer.sample_rate
  let delay_seconds := options.delay.getD (1/4)
  let decay := options.decay.getD (3/5)
  let repeats := options.repeats.getD 3
  let delay_samples := f32_to_usize (delay_seconds * (sample_rate : ℚ))
  let new_length := buffer.length + delay_samples * repeats
  ⟨buffer.samples.map (fun in_data =>
      let out0 := copy_into (List.replicate new_length 0) in_data
      let out1 := (List.range' 1 repeats).foldl
        (fun od r => add_echo od in_data (decay ^ r) (r * delay_samples)) out0
      out1.map (fun s => clampQ s (-1) 1)),
   sample_rate⟩

/-- `apply_binaural` (source lines 628-691): sine pair at `hz ∓ offset/2`
with fade-in/out, mixed over the program audio; forces stereo from mono. -/
def apply_binaural (fo : FloatOracle) (buffer : AudioBuffer)
    (options : EffectOptions) : AudioBuffer :=
  let sample_rate := buffer.sample_rate
  let channels := buffer.num_channels
  let len := buffer.length
  let hz := max (options.hz.getD 200) 1
  let offset := max (options.offset.getD 4) 0
  let amplitude := options.amplitude.getD (2/25)
  let fade_ms := options.fade_ms.getD 10
  let fade_samples := f32_to_usize (max ((fade_ms / 1000) * (sample_rate : ℚ)) 1)
  let f_left := hz - offset / 2
  let f_right := hz + offset / 2
  let out_channels := if channels = 1 then 2 else channels
  ⟨(List.range out_channels).map (fun ch =>
      let in_ch := min ch (channels - 1)
      let in_data := buffer.samples.getD in_ch []
      let tone_freq := if out_channels = 1 then f_left else if ch = 0 then f_left else f_right
      let phase_inc := (fo.two_pi * tone_freq) / (sample_rate : ℚ)
      ((List.range len).foldl
        (fun acc i =>
          let sample := in_data.getD i 0
          let tone :=
            if channels = 1 ∧ out_channels = 2 then
              let freq := if ch = 0 then f_left else f_right
              amplitude * fo.qsin (fo.two_pi * freq * (i : ℚ) / (sample_rate : ℚ))
            else amplitude * fo.qsin acc.2
          let phase1 := acc.2 + phase_inc
          let phase2 := if phase1 > fo.two_pi then phase1 - fo.two_pi else phase1
          let tone2 :=
            if i < fade_samples then tone * ((i : ℚ) / (fade_samples : ℚ))
            else if i > len - fade_samples then tone * (((len - i : ℕ) : ℚ) / (fade_samples : ℚ))
            else tone
          (acc.1 ++ [clampQ (sample + tone2) (-1) 1], phase2))
        (([] : List Sample), (0 : ℚ))).1),
   sample_rate⟩

/-- `apply_pan` (source lines 694-731): constant-power panning after a mono
mixdown; always two output channels.  The gains come from the float oracle. -/
def apply_pan (fo : FloatOracle) (buffer : AudioBuffer)
    (options : EffectOptions) : AudioBuffer :=
  let sample_rate := buffer.sample_rate
  let len := buffer.length
  let pan := clampQ (options.pan.getD 0) (-1) 1
  let angle := (pan + 1) * fo.frac_pi_4
  let left_gain := fo.qcos angle
  let right_gain := fo.qsin angle
  let mono_samples : List Sample :=
    if buffer.num_channels = 1 then buffer.samples.getD 0 []
    else
      let left := buffer.samples.getD 0 []
      let right := buffer.samples.getD (min 1 (buffer.num_channels - 1)) []
      (left.zip right).map (fun p => (p.1 + p.2) * (1/2))
  ⟨[(List.range len).map (fun i => clampQ ((mono_samples.getD i 0) * left_gain) (-1) 1),
    (List.range len).map (fun i => clampQ ((mono_samples.getD i 0) * right_gain) (-1) 1)],
   sample_rate⟩

/-- `apply_volume` (source lines 734-745): per-sample scale and clamp. -/
def apply_volume (buffer : AudioBuffer) (volume : ℚ) : AudioBuffer :=
  ⟨buffer.samples.map (fun data => data.map (fun s => clampQ (s * volume) (-1) 1)),
   buffer.sample_rate⟩

/-- The ideal-real reading of the gain-law lines of `apply_pan`
(source lines 699-705): clamp the pan, angle `(pan+1)·π/4`. -/
noncomputable def pan_angle (pan : ℝ) : ℝ :=
  (((if pan < -1 then -1 else if pan > 1 then 1 else pan) : ℝ) + 1) * (Real.pi / 4)

/-- `left_gain` of `apply_pan` (source line 704) over `ℝ`. -/
noncomputable def pan_left_gain (pan : ℝ) : ℝ := Real.cos (pan_angle pan)

/-- `right_gain` of `apply_pan` (source line 705) over `ℝ`. -/
noncomputable def pan_right_gain (pan : ℝ) : ℝ := Real.sin (pan_angle pan)

-- ============================================================================
-- trim_silence (source lines 748-823)
-- ============================================================================

/-- The per-index cross-channel absolute maximum of `trim_silence`
(source lines 755-764). -/
def abs_max_of (buffer : AudioBuffer) : List ℚ :=
  buffer.samples.foldl
    (fun am data =>
      (List.range buffer.length).foldl
        (fun am2 i =>
          let v := |data.getD i 0|
          if v > am2.getD i 0 then am2.set i v else am2)
        am)
    (List.replicate buffer.length 0)

/-- The sliding-window peak of `trim_silence` (source lines 769-777 and
788-796): max of `abs_max` over `[i, i + min_samples) ∩ [0, len)`, seeded 0. -/
def window_max (am : List ℚ) (i min_samples len : ℕ) : ℚ :=
  (List.range min_samples).foldl
    (fun m j =>
      if i + j < len then
        let v := am.getD (i + j) 0
        if v > m then v else m
      else m)
    0

/-- `find_start` of `trim_silence` (source lines 767-783): first window start
whose peak exceeds the threshold, else `len`. -/
def find_start (am : List ℚ) (threshold : ℚ) (min_samples len : ℕ) : ℕ :=
  match (List.range (len - min_samples + 1)).find?
      (fun i => decide (threshold < window_max am i min_samples len)) with
  | some i => i
  | none => len

/-- `find_end` of `trim_silence` (source lines 786-802): last window start
whose peak exceeds the threshold, plus `min_samples`, else 0. -/
def find_end (am : List ℚ) (threshold : ℚ) (min_samples len : ℕ) : ℕ :=
  match ((List.range (len - min_samples + 1)).reverse).find?
      (fun i => decide (threshold < window_max am i min_samples len)) with
  | some i => i + min_samples
  | none => 0

/-- `trim_silence` (source lines 748-823): crop to the span bounded by the
first and last loud windows; a fully quiet buffer collapses to a one-sample
mono silence.  The Rust crop loop indexes `in_data[i + start]` (line 818) and
panics when the crop span `[start, end)` reaches past a channel's length
(reachable e.g. for a loud buffer shorter than one window, or for a
zero-length buffer with a negative threshold, where the 0-seeded window peak
exceeds the threshold); the model totalizes those reads with `getD`, so
theorems about this function confine themselves to the fallback region,
where the crop loop is never entered and no such read occurs. -/
def trim_silence (buffer : AudioBuffer) (threshold min_silence_ms : ℚ) : AudioBuffer :=
  let sample_rate := buffer.sample_rate
  let min_samples := f32_to_usize (max ((min_silence_ms / 1000) * (sample_rate : ℚ)) 1)
  let len := buffer.length
  let am := abs_max_of buffer
  let start := find_start am threshold min_samples len
  let stop := find_end am threshold min_samples len
  if stop ≤ start then AudioBuffer.new 1 1 sample_rate
  else
    let out_len := stop - start
    ⟨buffer.samples.map (fun in_data =>
        (List.range out_len).map (fun i => in_data.getD (i + start) 0)),
     sample_rate⟩

-- ============================================================================
-- Script preprocessing (source lines 1182-1278)
-- ============================================================================

/-- ASCII lowercasing of one character (the scripts' tags are ASCII). -/
def char_to_lower (c : Char) : Char :=
  if 65 ≤ c.toNat ∧ c.toNat ≤ 90 then Char.ofNat (c.toNat + 32) else c

/-- Rust `str::to_lowercase` (ASCII fragment). -/
def str_to_lowercase (s : String) : String :=
  String.mk (s.data.map char_to_lower)

/-- Rust `str::is_empty`. -/
def str_is_empty (s : String) : Bool := s.data.isEmpty

/-- Rust `str::trim_start` (ASCII whitespace fragment). -/
def str_trim_start (s : String) : String :=
  String.mk (s.data.dropWhile Char.isWhitespace)

/-- Rust `str::trim` (ASCII whitespace fragment). -/
def str_trim (s : String) : String :=
  String.mk (((s.data.dropWhile Char.isWhitespace).reverse.dropWhile Char.isWhitespace).reverse)

/-- Rust `str::starts_with(&str)`. -/
def str_starts_with (s pat : String) : Bool := pat.data.isPrefixOf s.data

/-- Rust `str::ends_with(&str)`. -/
def str_ends_with (s pat : String) : Bool := pat.data.isSuffixOf s.data

/-- Substring containment, as Rust `str::contains(&str)`. -/
def contains_substr_aux (pat : List Char) : List Char → Bool
  | [] => pat.isPrefixOf ([] : List Char)
  | c :: rest => pat.isPrefixOf (c :: rest) || contains_substr_aux pat rest

/-- `haystack.contains(needle)` for strings. -/
def contains_substr (s pat : String) : Bool :=
  contains_substr_aux pat.data s.data

/-- Rust `str::replace(pat, repl)`: scan left to right, replace every
non-overlapping occurrence, never rescan the replacement.  The fuel is the
input length; every step consumes at least one character (all patterns used
by the source are non-empty), so it never runs out. -/
def replace_aux (pat repl : List Char) : ℕ → List Char → List Char
  | 0, cs => cs
  | _ + 1, [] => []
  | fuel + 1, c :: rest =>
    if pat.isPrefixOf (c :: rest) then
      repl ++ replace_aux pat repl fuel (rest.drop (pat.length - 1))
    else c :: replace_aux pat repl fuel rest

/-- `input.replace(pat, repl)` on strings. -/
def rust_replace (s pat repl : String) : String :=
  String.mk (replace_aux pat.data repl.data s.length s.data)

/-- The tag-name collection loop of `make_tag_self_closing`
(source lines 1192-1198): extend `tag_content` until whitespace, `>` or `/`
is seen (which stays unconsumed). -/
def collect_tag_head : List Char → String → String × List Char
  | [], acc => (acc, [])
  | c :: rest, acc =>
    if c.isWhitespace || c = '>' || c = '/' then (acc, c :: rest)
    else collect_tag_head rest (acc.push c)

/-- The rest-of-opening-tag loop of `make_tag_self_closing`
(source lines 1202-1208): push characters through the closing `>`. -/
def collect_tag_rest : List Char → String → String × List Char
  | [], acc => (acc, [])
  | c :: rest, acc =>
    if c = '>' then (acc.push c, rest)
    else collect_tag_rest rest (acc.push c)

/-- The lookahead loop of `make_tag_self_closing` (source lines 1210-1228):
gather up to `closing_tag.len() + 10` characters, stopping at the closing tag
or at the first non-whitespace run that is not the start of a closing tag.
String byte lengths of the source are character counts here (ASCII markup). -/
def collect_lookahead (closing_tag : String) : List Char → String → String × List Char
  | [], la => (la, [])
  | c :: rest, la =>
    if closing_tag.length + 10 ≤ la.length then (la, c :: rest)
    else if closing_tag.data.isSuffixOf la.data then (la, c :: rest)
    else
      let la2 := la.push c
      if !c.isWhitespace && !(str_starts_with (str_trim_start la2) "</") then (la2, rest)
      else collect_lookahead closing_tag rest la2

/-- The body of `make_tag_self_closing` (source lines 1182-1258), with the
remaining input as an explicit character list.  Each step consumes at least
one character, so `fuel = input length` never runs out; the fuel-0 fallback
flushes the remaining input unchanged. -/
def make_tag_self_closing_aux (tag_name closing_tag : String) :
    ℕ → List Char → String → String
  | 0, cs, acc => acc ++ String.mk cs
  | _ + 1, [], acc => acc
  | fuel + 1, c :: rest, acc =>
    if c = '<' then
      let p1 := collect_tag_head rest "<"
      let tag_content := p1.1
      let rest1 := p1.2
      if tag_content = "<" ++ tag_name then
        let p2 := collect_tag_rest rest1 tag_content
        let tag_content2 := p2.1
        let rest2 := p2.2
        let p3 := collect_lookahead closing_tag rest2 ""
        let la := p3.1
        let rest3 := p3.2
        if str_is_empty (str_trim la) || str_trim la = closing_tag then
          let acc2 := acc ++ tag_content2
          let acc3 :=
            if !(str_ends_with tag_content2 "/>") then
              if !contains_substr la closing_tag then acc2 ++ closing_tag
              else acc2 ++ la
            else acc2
          make_tag_self_closing_aux tag_name closing_tag fuel rest3 acc3
        else
          make_tag_self_closing_aux tag_name closing_tag fuel rest3 (acc ++ tag_content2 ++ la)
      else
        make_tag_self_closing_aux tag_name closing_tag fuel rest1 (acc ++ tag_content)
    else
      make_tag_self_closing_aux tag_name closing_tag fuel rest (acc.push c)

/-- `make_tag_self_closing` (source lines 1182-1258). -/
def make_tag_self_closing (input tag_name : String) : String :=
  make_tag_self_closing_aux tag_name ("</" ++ tag_name ++ ">") input.length input.data ""

/-- `preprocess_script` (source lines 1261-1278): self-close bare
`pause`/`sound` tags, replace `"..."` by `"."`, expand `"(pause)"`, and
unescape the four HTML entities. -/
def preprocess_script (script : String) : String :=
  let r1 := make_tag_self_closing script "pause"
  let r2 := make_tag_self_closing r1 "sound"
  let r3 := rust_replace r2 "..." "."
  let r4 := rust_replace r3 "(pause)" "<pause value=\"0.5\"></pause>"
  let r5 := rust_replace r4 "&quot;" "\""
  let r6 := rust_replace r5 "&amp;" "&"
  let r7 := rust_replace r6 "&lt;" "<"
  rust_replace r7 "&gt;" ">"

-- ============================================================================
-- Voices, presets lookup, effect dispatch (source lines 70-77, 1088-1112)
-- ============================================================================

/-- `get_voices` (source lines 70-77), as an association list. -/
def get_voices : List (String × String) :=
  [("female", "F1.json"), ("female2", "F2.json"),
   ("male", "M1.json"), ("male2", "M2.json")]

/-- `ScriptToAudioContext::get_preset` (source lines 1105-1112). -/
def get_preset (effect_name preset_name : String) : Option EffectOptions :=
  if effect_name = "echo" then List.lookup preset_name get_echo_presets
  else if effect_name = "binaural" then List.lookup preset_name get_binaural_presets
  else if effect_name = "pan" then List.lookup preset_name get_pan_presets
  else none

/-- `ScriptToAudioContext::apply_effect` (source lines 1088-1103): dispatch on
the effect name; an unrecognized name logs and returns the input unchanged. -/
def apply_effect (fo : FloatOracle) (effect_name : String)
    (buffer : AudioBuffer) (options : EffectOptions) : AudioBuffer :=
  if effect_name = "echo" then apply_echo buffer options
  else if effect_name = "binaural" then apply_binaural fo buffer options
  else if effect_name = "pan" then apply_pan fo buffer options
  else buffer

-- ============================================================================
-- Script interpreter (source lines 959-1130, 1281-1456)
-- ============================================================================

/-- The mutable interpreter state of `ScriptToAudioContext`
(source lines 959-972); the TTS session, directories, app handle and job id
are external-only and live in `Env`. -/
structure ScriptToAudioContext where
  current_speed : ℚ
  current_voice : String
  sample_rate : ℕ
  total_nodes : ℕ
  current_node : ℕ
deriving DecidableEq

/-- The parsed node tree consumed by the interpreter (kuchiki output):
text nodes and elements with a tag, attribute map and ordered children. -/
inductive DomNode where
  | text (s : String)
  | elem (tag : String) (attrs : List (String × String)) (children : List DomNode)

/-- `get_attr` (source lines 1170-1173) over the attribute association list. -/
def lookup_attr (attrs : List (String × String)) (name : String) : Option String :=
  List.lookup name attrs

/-- The external collaborators of the interpreter, as oracles:
`synth` is `get_voice_style` + `TextToSpeech::call` (text, voice file, engine
speed ↦ mono waveform or a fatal error), `fetch_sound` is
`fetch_sound_effect`, `parse_f32`/`parse_usize` are `str::parse`, and
`parse_options` is the serde-based `EffectOptions::from_json` (which already
falls back to default options on malformed JSON). -/
structure Env where
  synth : String → String → ℚ → Except Unit (List Sample)
  fetch_sound : String → Except Unit AudioBuffer
  parse_f32 : String → Option ℚ
  parse_usize : String → Option ℕ
  parse_options : String → EffectOptions
  fo : FloatOracle

/-- The speed remap of `ScriptToAudioContext::generate_tts`
(source lines 1116-1117): clamp to `[0.5, 2.0]`, then map into `[0.75, 1.25]`. -/
def tts_engine_speed (current_speed : ℚ) : ℚ :=
  let speed := (clampQ current_speed (1/2) 2 - 1/2) / (3/2)
  3/4 + speed * (1/2)

/-- `ScriptToAudioContext::generate_tts` (source lines 1114-1129): resolve the
voice file (unknown keys fall back to `F1.json`), synthesize `". " ++ text`
at the remapped speed, trim near-silence (threshold `0.002`, window `20`ms)
and attenuate by `0.85`. -/
def generate_tts (env : Env) (ctx : ScriptToAudioContext) (text : String) :
    Except Unit AudioBuffer :=
  let voice_file := (List.lookup ctx.current_voice get_voices).getD "F1.json"
  match env.synth (". " ++ text) voice_file (tts_engine_speed ctx.current_speed) with
  | Except.error e => Except.error e
  | Except.ok wav =>
    let buffer := AudioBuffer.from_mono wav ctx.sample_rate
    let trimmed := trim_silence buffer (1/500) 20
    Except.ok (apply_volume trimmed (17/20))

/-- The three recursion shapes of `process_node` (source lines 1281-1456):
one node, a child list (the ubiquitous `for child in node.children()` loops),
and the `part`-filtering loop of the `overlay` branch (lines 1340-1357),
which yields one concatenated buffer per non-empty `part`. -/
inductive WalkTask where
  | node (n : DomNode)
  | children (cs : List DomNode)
  | overlay_parts (cs : List DomNode)

/-- `process_node` (source lines 1281-1456) with explicit state passing.
The fuel decreases at every recursive call; the Rust recursion is bounded by
the tree, so any fuel at least the tree size gives the Rust behavior, and
exhaustion is a separate `error` outcome.  Progress emission (lines
1282-1283, 1345) is external and dropped; the `current_node` increments it
reads are kept. -/
def processAny (env : Env) : ℕ → ScriptToAudioContext → WalkTask →
    Except Unit (ScriptToAudioContext × List AudioBuffer)
  | 0, _, _ => Except.error ()
  | _ + 1, ctx, WalkTask.node (DomNode.text s) =>
    let ctx1 := { ctx with current_node := ctx.current_node + 1 }
    let text := str_trim s
    if str_is_empty text then Except.ok (ctx1, [])
    else
      match generate_tts env ctx1 text with
      | Except.ok seg => Except.ok (ctx1, [seg])
      | Except.error e => Except.error e
  | fuel + 1, ctx, WalkTask.node (DomNode.elem tag attrs children) =>
    let ctx1 := { ctx with current_node := ctx.current_node + 1 }
    let tagl := str_to_lowercase tag
    if tagl = "speed" then
      let prev_speed := ctx1.current_speed
      let ctx2 :=
        match lookup_attr attrs "value" with
        | some v => { ctx1 with current_speed := (env.parse_f32 v).getD 1 }
        | none => ctx1
      match processAny env fuel ctx2 (WalkTask.children children) with
      | Except.ok r => Except.ok ({ r.1 with current_speed := prev_speed }, r.2)
      | Except.error e => Except.error e
    else if tagl = "voice" then
      let prev_voice := ctx1.current_voice
      let ctx2 :=
        match lookup_attr attrs "value" with
        | some v =>
          { ctx1 with current_voice :=
              if (List.lookup v get_voices).isSome then v else v }
        | none => ctx1
      match processAny env fuel ctx2 (WalkTask.children children) with
      | Except.ok r => Except.ok ({ r.1 with current_voice := prev_voice }, r.2)
      | Except.error e => Except.error e
    else if tagl = "pause" then
      let duration : ℚ := ((lookup_attr attrs "value").bind env.parse_f32).getD 1
      let sil := AudioBuffer.silence (F32.num duration) ctx1.sample_rate
      match processAny env fuel ctx1 (WalkTask.children children) with
      | Except.ok r => Except.ok (r.1, sil :: r.2)
      | Except.error e => Except.error e
    else if tagl = "overlay" then
      match processAny env fuel ctx1 (WalkTask.overlay_parts children) with
      | Except.ok r =>
        Except.ok (r.1, if r.2.isEmpty then [] else [AudioBuffer.merge r.2])
      | Except.error e => Except.error e
    else if tagl = "sound" then
      let head :=
        match lookup_attr attrs "value" with
        | some v =>
          match env.fetch_sound v with
          | Except.ok b => [b]
          | Except.error _ => []
        | none => []
      match processAny env fuel ctx1 (WalkTask.children children) with
      | Except.ok r => Except.ok (r.1, head ++ r.2)
      | Except.error e => Except.error e
    else if tagl = "effect" then
      let effect_name := (lookup_attr attrs "value").getD ""
      let preset_name := lookup_attr attrs "preset"
      let options_attr := (lookup_attr attrs "options").getD "\x7b\x7d"
      let options0 :=
        match preset_name with
        | some preset =>
          match get_preset effect_name preset with
          | some preset_opts => preset_opts
          | none => EffectOptions.default
        | none => EffectOptions.default
      let parsed_options := env.parse_options options_attr
      let options := options0.merge parsed_options
      match processAny env fuel ctx1 (WalkTask.children children) with
      | Except.ok r =>
        Except.ok (r.1,
          if r.2.isEmpty then []
          else [apply_effect env.fo effect_name (AudioBuffer.concat r.2) options])
      | Except.error e => Except.error e
    else if tagl = "loop" then
      let loops := ((lookup_attr attrs "value").bind env.parse_usize).getD 1
      match processAny env fuel ctx1 (WalkTask.children children) with
      | Except.ok r =>
        Except.ok (r.1,
          if r.2.isEmpty then []
          else List.replicate loops (AudioBuffer.concat r.2))
      | Except.error e => Except.error e
    else if tagl = "volume" then
      let volume := max (((lookup_attr attrs "value").bind env.parse_f32).getD 1) 0
      match processAny env fuel ctx1 (WalkTask.children children) with
      | Except.ok r =>
        Except.ok (r.1,
          if r.2.isEmpty then []
          else [apply_volume (AudioBuffer.concat r.2) volume])
      | Except.error e => Except.error e
    else
      processAny env fuel ctx1 (WalkTask.children children)
  | _ + 1, ctx, WalkTask.children [] => Except.ok (ctx, [])
  | fuel + 1, ctx, WalkTask.children (c :: cs) =>
    match processAny env fuel ctx (WalkTask.node c) with
    | Except.error e => Except.error e
    | Except.ok r =>
      match processAny env fuel r.1 (WalkTask.children cs) with
      | Except.error e => Except.error e
      | Except.ok r2 => Except.ok (r2.1, r.2 ++ r2.2)
  | _ + 1, ctx, WalkTask.overlay_parts [] => Except.ok (ctx, [])
  | fuel + 1, ctx, WalkTask.overlay_parts (c :: cs) =>
    match c with
    | DomNode.text _ => processAny env fuel ctx (WalkTask.overlay_parts cs)
    | DomNode.elem ctag _ cchildren =>
      if str_to_lowercase ctag = "part" then
        let ctxa := { ctx with current_node := ctx.current_node + 1 }
        match processAny env fuel ctxa (WalkTask.children cchildren) with
        | Except.error e => Except.error e
        | Except.ok r =>
          let here := if r.2.isEmpty then [] else [AudioBuffer.concat r.2]
          match processAny env fuel r.1 (WalkTask.overlay_parts cs) with
          | Except.error e => Except.error e
          | Except.ok r2 => Except.ok (r2.1, here ++ r2.2)
      else processAny env fuel ctx (WalkTask.overlay_parts cs)

/-- `process_node` on a single node (source line 1281). -/
def process_node (env : Env) (fuel : ℕ) (ctx : ScriptToAudioContext)
    (n : DomNode) : Except Unit (ScriptToAudioContext × List AudioBuffer) :=
  processAny env fuel ctx (WalkTask.node n)

-- ============================================================================
-- Concrete fixtures used by witnesses and counterexamples
-- ============================================================================

/-- A trivial float oracle for witnesses. -/
def foW : FloatOracle := { qsin := fun x => x, qcos := fun x => x, two_pi := 0, frac_pi_4 := 0 }

/-- A concrete oracle environment for witnesses. -/
def envW : Env :=
  { synth := fun _ _ _ => Except.ok []
    fetch_sound := fun _ => Except.error ()
    parse_f32 := fun _ => some 2
    parse_usize := fun _ => none
    parse_options := fun _ => EffectOptions.default
    fo := foW }

/-- A concrete starting interpreter context for witnesses. -/
def ctxW : ScriptToAudioContext :=
  { current_speed := 1, current_voice := "female", sample_rate := 24000,
    total_nodes := 0, current_node := 0 }

/-- One-sample mono buffer at rate 2 (echo counterexample input). -/
def cEchoBuf : AudioBuffer := ⟨[[0]], 2⟩

/-- Echo options with `delay = 0.875` (exact in `f32`) and one repeat:
`delay * rate = 1.75`, where truncation and rounding differ. -/
def cEchoOpts : EffectOptions := { delay := some (7/8), decay := some (1/2), repeats := some 1 }

/-- A quiet three-sample mono buffer (trim_silence witness input). -/
def cQuietBuf : AudioBuffer := ⟨[[0, 0, 0]], 100⟩

/-- Two loud same-rate buffers whose sum would leave `[-1, 1]` unclamped. -/
def cMergeBufs : List AudioBuffer := [⟨[[2]], 10⟩, ⟨[[-(3/2)]], 10⟩]

/-- A small buffer for the unknown-effect pass-through witness. -/
def cPassBuf : AudioBuffer := ⟨[[1/2]], 24000⟩

/-- The "light" echo preset record (merge witness base). -/
def c5_base : EffectOptions := { delay := some (1/10), decay := some (3/10), repeats := some 2 }

/-- Explicit options overriding only `delay` (merge witness override). -/
def c5_ovr : EffectOptions := { delay := some (1/2) }

-- ============================================================================
-- Helper lemmas
-- ============================================================================

theorem foldl_invariant_mem {α : Type} {β : Type} (P : α → Prop) (f : α → β → α) :
    ∀ (l : List β) (a : α), P a → (∀ x b, b ∈ l → P x → P (f x b)) → P (l.foldl f a)
  | [], _, ha, _ => ha
  | b :: bs, a, ha, hf =>
    foldl_invariant_mem P f bs (f a b) (hf a b (List.mem_cons_self b bs) ha)
      (fun x c hc hx => hf x c (List.mem_cons_of_mem b hc) hx)

theorem getD_mem_or {α : Type} (l : List α) (n : ℕ) (d : α) :
    l.getD n d ∈ l ∨ l.getD n d = d := by
  by_cases h : n < l.length
  · left
    rw [List.getD_eq_getElem l d h]
    exact List.getElem_mem h
  · right
    have h2 : l.length ≤ n := Nat.le_of_not_lt h
    simp [List.getD_eq_getElem?_getD, List.getElem?_eq_none h2]

theorem clampQ_bounds (x lo hi : ℚ) (h : lo ≤ hi) :
    lo ≤ clampQ x lo hi ∧ clampQ x lo hi ≤ hi := by
  unfold clampQ
  split_ifs with h1 h2 <;> constructor <;> linarith

theorem option_or_spec {α : Type} (o b : Option α) :
    (o.isSome = true → o.or b = o) ∧ (o = none → o.or b = b) := by
  cases o <;> simp

-- ============================================================================
-- Claims
-- ============================================================================

/-- Claim C1 (refuting evaluation): preprocessing the script
`"Hello... world"` yields `"Hello. world"` — the literal `"..."` is collapsed
to `"."` and the result does not contain the tag `<pause value="0.5"></pause>`
(the function's doc comment and its unit test `test_preprocess_script` say it
should). -/
theorem preprocess_ellipsis_no_pause_tag :
    preprocess_script "Hello... world" = "Hello. world" ∧
    contains_substr (preprocess_script "Hello... world") "<pause value=\"0.5\"></pause>" = false :=
  ⟨by decide, by decide⟩

/-- Claim C5: for every base (preset) record and override (explicit) record,
the merged record equals the override in every field where the override has a
value and equals the base in every field where the override is absent. -/
theorem effect_options_merge_spec (base ovr : EffectOptions) :
    ((ovr.delay.isSome = true → (base.merge ovr).delay = ovr.delay) ∧
      (ovr.delay = none → (base.merge ovr).delay = base.delay)) ∧
    ((ovr.decay.isSome = true → (base.merge ovr).decay = ovr.decay) ∧
      (ovr.decay = none → (base.merge ovr).decay = base.decay)) ∧
    ((ovr.repeats.isSome = true → (base.merge ovr).repeats = ovr.repeats) ∧
      (ovr.repeats = none → (base.merge ovr).repeats = base.repeats)) ∧
    ((ovr.hz.isSome = true → (base.merge ovr).hz = ovr.hz) ∧
      (ovr.hz = none → (base.merge ovr).hz = base.hz)) ∧
    ((ovr.offset.isSome = true → (base.merge ovr).offset = ovr.offset) ∧
      (ovr.offset = none → (base.merge ovr).offset = base.offset)) ∧
    ((ovr.amplitude.isSome = true → (base.merge ovr).amplitude = ovr.amplitude) ∧
      (ovr.amplitude = none → (base.merge ovr).amplitude = base.amplitude)) ∧
    ((ovr.fade_ms.isSome = true → (base.merge ovr).fade_ms = ovr.fade_ms) ∧
      (ovr.fade_ms = none → (base.merge ovr).fade_ms = base.fade_ms)) ∧
    ((ovr.pan.isSome = true → (base.merge ovr).pan = ovr.pan) ∧
      (ovr.pan = none → (base.merge ovr).pan = base.pan)) :=
  ⟨option_or_spec ovr.delay base.delay, option_or_spec ovr.decay base.decay,
   option_or_spec ovr.repeats base.repeats, option_or_spec ovr.hz base.hz,
   option_or_spec ovr.offset base.offset, option_or_spec ovr.amplitude base.amplitude,
   option_or_spec ovr.fade_ms base.fade_ms, option_or_spec ovr.pan base.pan⟩

/-- Witness for C5: the "light" echo preset merged with an explicit record
overriding only `delay`: the merged `delay` is the explicit one, the merged
`decay` stays at the preset default. -/
theorem effect_options_merge_witness :
    (c5_base.merge c5_ovr).delay = c5_ovr.delay ∧
    (c5_base.merge c5_ovr).decay = c5_base.decay :=
  ⟨(effect_options_merge_spec c5_base c5_ovr).1.1 rfl,
   ((effect_options_merge_spec c5_base c5_ovr).2.1).2 rfl⟩

/-- Claim C6: for every pan value in `[-1, 1]`, the constant-power gains
`left = cos((pan+1)·π/4)` and `right = sin((pan+1)·π/4)` of `apply_pan`
satisfy `left² + right² = 1`. -/
theorem pan_gains_constant_power (pan : ℝ) (h1 : -1 ≤ pan) (h2 : pan ≤ 1) :
    pan_left_gain pan ^ 2 + pan_right_gain pan ^ 2 = 1 :=
  Real.cos_sq_add_sin_sq (pan_angle pan)

/-- Witness for C6 at `pan = 0`. -/
theorem pan_gains_constant_power_witness :
    (-1 ≤ (0 : ℝ)) ∧ ((0 : ℝ) ≤ 1) ∧
    pan_left_gain 0 ^ 2 + pan_right_gain 0 ^ 2 = 1 :=
  ⟨by norm_num, by norm_num, pan_gains_constant_power 0 (by norm_num) (by norm_num)⟩

/-- Claim C7: the speed handed to the synthesis engine by `generate_tts`
equals `0.75 + ((clamp(s, 0.5, 2.0) - 0.5) / 1.5) * 0.5`, and it lies in the
engine range `[0.75, 1.25]` for every user speed `s`. -/
theorem tts_engine_speed_spec (s : ℚ) :
    tts_engine_speed s = 3/4 + ((max (1/2) (min s 2) - 1/2) / (3/2)) * (1/2) ∧
    3/4 ≤ tts_engine_speed s ∧ tts_engine_speed s ≤ 5/4 := by
  unfold tts_engine_speed clampQ
  split_ifs with h1 h2
  · rw [min_eq_left (by linarith), max_eq_left (by linarith)]
    norm_num
  · rw [min_eq_right (by linarith), max_eq_right (by norm_num)]
    norm_num
  · rw [min_eq_left (by linarith), max_eq_right (by linarith)]
    have hdiv : (s - 1/2) / (3/2) = (s - 1/2) * (2/3) := by ring
    refine ⟨rfl, ?_, ?_⟩ <;> simp only [hdiv] <;> nlinarith [h1, h2]

/-- Claim C8: applying an effect whose name is none of `echo`, `binaural`,
`pan` returns the input buffer unchanged (pass-through, not an error;
the model is a total function, so no failure is even expressible). -/
theorem apply_effect_unknown_passthrough (fo : FloatOracle) (effect_name : String)
    (buffer : AudioBuffer) (options : EffectOptions)
    (h1 : effect_name ≠ "echo") (h2 : effect_name ≠ "binaural") (h3 : effect_name ≠ "pan") :
    apply_effect fo effect_name buffer options = buffer := by
  simp [apply_effect, h1, h2, h3]

/-- Witness for C8 at the unknown effect name `"reverb"`. -/
theorem apply_effect_unknown_witness :
    apply_effect foW "reverb" cPassBuf EffectOptions.default = cPassBuf :=
  apply_effect_unknown_passthrough foW "reverb" cPassBuf EffectOptions.default
    (by decide) (by decide) (by decide)

/-- Claim C9: for every negative, zero or NaN duration and every sample rate,
`AudioBuffer::silence` returns a 1-channel buffer of length 0 — the
float-to-integer cast saturates at zero instead of faulting. -/
theorem silence_nonpositive_length_zero (duration_secs : F32) (sample_rate : ℕ)
    (h : duration_secs = F32.nan ∨ duration_secs = F32.neginf ∨
         ∃ q, q ≤ 0 ∧ duration_secs = F32.num q) :
    (AudioBuffer.silence duration_secs sample_rate).num_channels = 1 ∧
    (AudioBuffer.silence duration_secs sample_rate).length = 0 := by
  have hz : f32_as_usize (f32_mul_nat duration_secs sample_rate) = 0 := by
    rcases h with h | h | ⟨q, hq, h⟩ <;> subst h
    · rfl
    · cases sample_rate <;> simp [f32_mul_nat, f32_as_usize]
    · have hqn : q * (sample_rate : ℚ) ≤ 0 :=
        mul_nonpos_iff.mpr (Or.inr ⟨hq, Nat.cast_nonneg sample_rate⟩)
      have hfl : ⌊q * ((sample_rate : ℕ) : ℚ)⌋ ≤ 0 := by
        calc ⌊q * ((sample_rate : ℕ) : ℚ)⌋ ≤ ⌊(0 : ℚ)⌋ := Int.floor_le_floor hqn
        _ = 0 := Int.floor_zero
      simp [f32_mul_nat, f32_as_usize, Int.toNat_eq_zero.mpr hfl]
  unfold AudioBuffer.silence
  rw [hz]
  exact ⟨by simp [AudioBuffer.new, AudioBuffer.num_channels],
         by simp [AudioBuffer.new, AudioBuffer.length]⟩

/-- Witness for C9 at duration `-1` and the standard sample rate. -/
theorem silence_nonpositive_witness :
    (AudioBuffer.silence (F32.num (-1)) 24000).num_channels = 1 ∧
    (AudioBuffer.silence (F32.num (-1)) 24000).length = 0 :=
  silence_nonpositive_length_zero (F32.num (-1)) 24000
    (Or.inr (Or.inr ⟨-1, by norm_num, rfl⟩))

@[simp] theorem enumerate_nil {α : Type} (i : ℕ) : enumerate i ([] : List α) = [] := rfl

@[simp] theorem enumerate_cons {α : Type} (i : ℕ) (x : α) (xs : List α) :
    enumerate i (x :: xs) = (i, x) :: enumerate (i + 1) xs := rfl

theorem copy_into_length (dst src : List Sample) :
    (copy_into dst src).length = dst.length := by
  unfold copy_into
  refine foldl_invariant_mem (fun d : List Sample => d.length = dst.length) _ _ _ rfl ?_
  intro x p _ hx
  dsimp only at hx ⊢
  rw [List.length_set]
  exact hx

theorem add_echo_length (dst src : List Sample) (attenuation : ℚ) (offset : ℕ) :
    (add_echo dst src attenuation offset).length = dst.length := by
  unfold add_echo
  refine foldl_invariant_mem (fun d : List Sample => d.length = dst.length) _ _ _ rfl ?_
  intro x p _ hx
  dsimp only at hx ⊢
  split
  · rw [List.length_set]; exact hx
  · exact hx

theorem echo_pipeline_length (in_data : List Sample) (decay : ℚ)
    (repeats delay_samples new_length : ℕ) :
    ((List.range' 1 repeats).foldl
        (fun od r => add_echo od in_data (decay ^ r) (r * delay_samples))
        (copy_into (List.replicate new_length 0) in_data)).length = new_length := by
  refine foldl_invariant_mem (fun od : List Sample => od.length = new_length) _ _ _ ?_ ?_
  · show (copy_into (List.replicate new_length 0) in_data).length = new_length
    rw [copy_into_length, List.length_replicate]
  · intro x b _ hx
    dsimp only at hx ⊢
    rw [add_echo_length]
    exact hx

/-- The echo length equation, kept as a shared lemma: for a buffer with at
least one channel and equal channel lengths, the output length is the input
length plus `repeats * ((delay * rate) as usize)` (truncating cast). -/
theorem echo_length_eq (buffer : AudioBuffer) (options : EffectOptions)
    (hch : 0 < buffer.samples.length)
    (hwf : ∀ dat ∈ buffer.samples, dat.length = buffer.length) :
    (apply_echo buffer options).length =
      buffer.length + (options.repeats.getD 3) *
        f32_to_usize ((options.delay.getD (1/4)) * (buffer.sample_rate : ℚ)) := by
  obtain ⟨c, rest, hcons⟩ := List.exists_cons_of_ne_nil (List.length_pos.mp hch)
  conv_lhs => rw [apply_echo, AudioBuffer.length]
  rw [hcons]
  simp only [List.map_cons, List.head?_cons, Option.map_some', Option.getD_some,
    List.length_map, echo_pipeline_length]
  rw [Nat.mul_comm]

/-- Counterexample for C3 as stated: at a one-sample buffer of rate 2 with
`delay = 0.875` (exact in `f32`, so `delay · rate = 1.75`) and one repeat,
the code's output length is `1 + trunc 1.75 = 2`, while the claimed formula
with `round` gives `1 + round 1.75 = 3`. -/
theorem apply_echo_round_counterexample :
    (apply_echo cEchoBuf cEchoOpts).length ≠
      cEchoBuf.length + (cEchoOpts.repeats.getD 3) *
        Int.toNat (round ((cEchoOpts.delay.getD (1/4)) * (cEchoBuf.sample_rate : ℚ))) := by
  have hcode : (apply_echo cEchoBuf cEchoOpts).length = 2 := by
    rw [echo_length_eq cEchoBuf cEchoOpts (by simp [cEchoBuf])
      (by simp [cEchoBuf, AudioBuffer.length])]
    have hds : f32_to_usize ((cEchoOpts.delay.getD (1/4)) * ((cEchoBuf.sample_rate : ℕ) : ℚ)) = 1 := by
      show f32_to_usize ((7/8 : ℚ) * ((2 : ℕ) : ℚ)) = 1
      norm_num [f32_to_usize, USIZE_MAX]
    rw [hds]
    simp [cEchoBuf, cEchoOpts, AudioBuffer.length]
  have hclaim : cEchoBuf.length + (cEchoOpts.repeats.getD 3) *
      Int.toNat (round ((cEchoOpts.delay.getD (1/4)) * (cEchoBuf.sample_rate : ℚ))) = 3 := by
    have hr : round ((cEchoOpts.delay.getD (1/4)) * ((cEchoBuf.sample_rate : ℕ) : ℚ)) = 2 := by
      show round ((7/8 : ℚ) * ((2 : ℕ) : ℚ)) = 2
      rw [round_eq]
      norm_num
    rw [hr]
    simp [cEchoBuf, cEchoOpts, AudioBuffer.length]
  omega

/-- Claim C3 (amended): for every buffer with at least one channel and equal
channel lengths (the documented `AudioBuffer` invariant), the echo output
length equals the input length plus `repeats` times the *truncated* (not
rounded) `delay * sample_rate`, with defaults `repeats = 3`, `delay = 0.25`. -/
theorem apply_echo_length (buffer : AudioBuffer) (options : EffectOptions)
    (hch : 0 < buffer.samples.length)
    (hwf : ∀ dat ∈ buffer.samples, dat.length = buffer.length) :
    (apply_echo buffer options).length =
      buffer.length + (options.repeats.getD 3) *
        f32_to_usize ((options.delay.getD (1/4)) * (buffer.sample_rate : ℚ)) :=
  echo_length_eq buffer options hch hwf

/-- Witness for the amended C3 at the counterexample input. -/
theorem apply_echo_length_witness :
    (apply_echo cEchoBuf cEchoOpts).length =
      cEchoBuf.length + (cEchoOpts.repeats.getD 3) *
        f32_to_usize ((cEchoOpts.delay.getD (1/4)) * (cEchoBuf.sample_rate : ℚ)) :=
  apply_echo_length cEchoBuf cEchoOpts (by simp [cEchoBuf])
    (by simp [cEchoBuf, AudioBuffer.length])

theorem mix_channel_bounded (dst src : List Sample)
    (h : ∀ x ∈ dst, -1 ≤ x ∧ x ≤ 1) :
    ∀ x ∈ mix_channel dst src, -1 ≤ x ∧ x ≤ 1 := by
  unfold mix_channel
  refine foldl_invariant_mem
    (fun d : List Sample => ∀ x ∈ d, -1 ≤ x ∧ x ≤ 1) _ _ _ h ?_
  intro d p _ hd x hx
  rcases List.mem_or_eq_of_mem_set hx with h1 | h1
  · exact hd x h1
  · subst h1
    exact clampQ_bounds _ _ _ (by norm_num)

theorem mix_buffer_bounded (res : List (List Sample)) (buffer : AudioBuffer)
    (num_channels : ℕ) (h : ∀ ch ∈ res, ∀ x ∈ ch, -1 ≤ x ∧ x ≤ 1) :
    ∀ ch ∈ mix_buffer res buffer num_channels, ∀ x ∈ ch, -1 ≤ x ∧ x ≤ 1 := by
  unfold mix_buffer
  refine foldl_invariant_mem
    (fun r : List (List Sample) => ∀ ch ∈ r, ∀ x ∈ ch, -1 ≤ x ∧ x ≤ 1) _ _ _ h ?_
  intro r chn _ hr ch hch x hx
  dsimp only at hch
  rcases List.mem_or_eq_of_mem_set hch with h1 | h1
  · exact hr ch h1 x hx
  · subst h1
    refine mix_channel_bounded _ _ ?_ x hx
    rcases getD_mem_or r chn [] with h2 | h2
    · exact hr _ h2
    · rw [h2]
      intro y hy
      exact absurd hy (List.not_mem_nil y)

/-- Claim C4: mixing any non-empty list of buffers (each with at least one
channel) yields a buffer all of whose samples lie in `[-1, 1]`: samples are
summed position-wise and hard-clamped, with no automatic gain reduction. -/
theorem merge_samples_in_range (buffers : List AudioBuffer)
    (hne : buffers ≠ []) (hch : ∀ b ∈ buffers, 0 < b.samples.length) :
    ∀ ch ∈ (AudioBuffer.merge buffers).samples, ∀ x ∈ ch, -1 ≤ x ∧ x ≤ 1 := by
  obtain ⟨b0, bs, rfl⟩ := List.exists_cons_of_ne_nil hne
  simp only [AudioBuffer.merge]
  refine foldl_invariant_mem
    (fun r : List (List Sample) => ∀ ch ∈ r, ∀ x ∈ ch, -1 ≤ x ∧ x ≤ 1) _ _ _ ?_ ?_
  · intro ch hch2 x hx
    rw [List.eq_of_mem_replicate hch2] at hx
    rw [List.eq_of_mem_replicate hx]
    norm_num
  · intro r b _ hr
    exact mix_buffer_bounded r b _ hr

/-- Witness for C4: mixing a sample `2` with a sample `-3/2` (each sum
step out of range before clamping) stays within `[-1, 1]`. -/
theorem merge_samples_in_range_witness :
    -1 ≤ ((AudioBuffer.merge cMergeBufs).samples.getD 0 []).getD 0 0 ∧
    ((AudioBuffer.merge cMergeBufs).samples.getD 0 []).getD 0 0 ≤ 1 := by
  have hsamples : (AudioBuffer.merge cMergeBufs).samples = [[-(1/2 : ℚ)]] := by
    simp [cMergeBufs, AudioBuffer.merge, mix_buffer, mix_channel, clampQ,
      AudioBuffer.num_channels, AudioBuffer.length, List.max?, List.range_succ]
    norm_num
  refine merge_samples_in_range cMergeBufs (by simp [cMergeBufs])
    (by simp [cMergeBufs]) ((AudioBuffer.merge cMergeBufs).samples.getD 0 []) ?_ _ ?_
  · rw [hsamples]
    simp
  · rw [hsamples]
    simp

theorem abs_max_of_entries_le (buffer : AudioBuffer) (threshold : ℚ)
    (hth : 0 ≤ threshold)
    (hquiet : ∀ dat ∈ buffer.samples, ∀ x ∈ dat, |x| ≤ threshold) :
    ∀ v ∈ abs_max_of buffer, v ≤ threshold := by
  unfold abs_max_of
  refine foldl_invariant_mem (fun am : List ℚ => ∀ v ∈ am, v ≤ threshold) _ _ _ ?_ ?_
  · intro v hv
    rw [List.eq_of_mem_replicate hv]
    exact hth
  · intro am dat hdat ham
    refine foldl_invariant_mem (fun am2 : List ℚ => ∀ v ∈ am2, v ≤ threshold) _ _ _ ham ?_
    intro am2 i _ ham2 v hv
    dsimp only at hv
    split at hv
    · rcases List.mem_or_eq_of_mem_set hv with h1 | h1
      · exact ham2 v h1
      · subst h1
        rcases getD_mem_or dat i 0 with h2 | h2
        · exact hquiet dat hdat _ h2
        · rw [h2, abs_zero]
          exact hth
    · exact ham2 v hv

theorem window_max_le (am : List ℚ) (threshold : ℚ) (i min_samples len : ℕ)
    (hth : 0 ≤ threshold) (ham : ∀ v ∈ am, v ≤ threshold) :
    window_max am i min_samples len ≤ threshold := by
  unfold window_max
  refine foldl_invariant_mem (fun m : ℚ => m ≤ threshold) _ _ _ hth ?_
  intro m j _ hm
  dsimp only
  split
  · split
    · rcases getD_mem_or am (i + j) 0 with h2 | h2
      · exact ham _ h2
      · rw [h2]
        exact hth
    · exact hm
  · exact hm

theorem find_none_of_quiet (am : List ℚ) (threshold : ℚ) (min_samples len : ℕ)
    (h : ∀ i < len - min_samples + 1, window_max am i min_samples len ≤ threshold) :
    find_start am threshold min_samples len = len ∧
    find_end am threshold min_samples len = 0 := by
  have hnone : ∀ l : List ℕ, (∀ x ∈ l, x < len - min_samples + 1) →
      (l.find? (fun i => decide (threshold < window_max am i min_samples len))) = none := by
    intro l hl
    apply List.find?_eq_none.mpr
    intro i hi
    simp only [decide_eq_true_eq, not_lt]
    exact h i (hl i hi)
  constructor
  · unfold find_start
    rw [hnone _ (fun x hx => List.mem_range.mp hx)]
  · unfold find_end
    rw [hnone _ (fun x hx => List.mem_range.mp (List.mem_reverse.mp hx))]

/-- Claim C10: for every input buffer (with the documented equal-channel-
length invariant) in which no sliding window of the minimum-silence length
contains a sample above the threshold, `trim_silence` returns a buffer with
exactly 1 channel and 1 sample at the input's sample rate — the input's
channel count is not preserved, even for stereo input.  The hypothesis is
formalized the way the scan itself reads it: no scanned window's peak
`window_max` — the 0-seeded maximum over the window of the per-index
cross-channel absolute values (source lines 769-777) — exceeds the
threshold.  For every window holding at least one sample this says exactly
that no sample in it is above the threshold (the absolute values are
nonnegative, so a negative threshold is exceeded by any sample as well as by
the seed), and the 0 seed settles the sample-less-window edge of a
zero-length buffer the way the scan does, consistently with the claim's
all-zero-buffer context.  Throughout this hypothesis region the code takes
the fallback branch (`start = len ≥ end = 0`), so the Rust original performs
no indexing beyond the `abs_max` scan covered by the invariant hypothesis,
and the total model is faithful. -/
theorem trim_silence_fallback (buffer : AudioBuffer) (threshold min_silence_ms : ℚ)
    (hwf : ∀ dat ∈ buffer.samples, dat.length = buffer.length)
    (hquiet : ∀ i < buffer.length -
        f32_to_usize (max ((min_silence_ms / 1000) * (buffer.sample_rate : ℚ)) 1) + 1,
      window_max (abs_max_of buffer) i
        (f32_to_usize (max ((min_silence_ms / 1000) * (buffer.sample_rate : ℚ)) 1))
        buffer.length ≤ threshold) :
    (trim_silence buffer threshold min_silence_ms).num_channels = 1 ∧
    (trim_silence buffer threshold min_silence_ms).length = 1 ∧
    (trim_silence buffer threshold min_silence_ms).sample_rate = buffer.sample_rate := by
  obtain ⟨hfs, hfe⟩ := find_none_of_quiet (abs_max_of buffer) threshold
    (f32_to_usize (max ((min_silence_ms / 1000) * (buffer.sample_rate : ℚ)) 1))
    buffer.length hquiet
  simp only [trim_silence, hfs, hfe]
  simp [AudioBuffer.new, AudioBuffer.num_channels, AudioBuffer.length]

/-- Witness for C10: an all-zero 3-sample mono buffer with threshold `1/2`
(every window peak is 0) trims to a 1-channel, 1-sample buffer at the same
rate. -/
theorem trim_silence_fallback_witness :
    (trim_silence cQuietBuf (1/2) 20).num_channels = 1 ∧
    (trim_silence cQuietBuf (1/2) 20).length = 1 ∧
    (trim_silence cQuietBuf (1/2) 20).sample_rate = cQuietBuf.sample_rate := by
  refine trim_silence_fallback cQuietBuf (1/2) 20
    (by simp [cQuietBuf, AudioBuffer.length]) ?_
  intro i _
  refine window_max_le _ _ _ _ _ (by norm_num) ?_
  refine abs_max_of_entries_le cQuietBuf (1/2) (by norm_num) ?_
  intro dat hdat x hx
  simp only [cQuietBuf] at hdat
  simp only [List.mem_singleton] at hdat
  subst hdat
  simp only [List.mem_cons, List.not_mem_nil, or_false] at hx
  rcases hx with h | h | h <;> rw [h] <;> norm_num

/-- Claim C2: when the interpreter finishes evaluating a `speed` (resp.
`voice`) element successfully, the context's current speed (resp. current
voice) equals its value just before entering the tag, whatever the subtree
set it to — so a sibling evaluated afterwards (which receives this returned
context) sees the original value and the override never escapes the subtree. -/
theorem process_node_scoped_restore (env : Env) (fuel : ℕ)
    (ctx : ScriptToAudioContext) (tag : String)
    (attrs : List (String × String)) (children : List DomNode)
    (ctx2 : ScriptToAudioContext) (segs : List AudioBuffer)
    (h : process_node env fuel ctx (DomNode.elem tag attrs children) =
      Except.ok (ctx2, segs)) :
    (str_to_lowercase tag = "speed" → ctx2.current_speed = ctx.current_speed) ∧
    (str_to_lowercase tag = "voice" → ctx2.current_voice = ctx.current_voice) := by
  cases fuel with
  | zero => exact absurd h (by simp [process_node, processAny])
  | succ fuel =>
    unfold process_node processAny at h
    constructor
    · intro htag
      rw [htag] at h
      simp only [String.reduceEq, reduceIte] at h
      cases hl : lookup_attr attrs "value" with
      | none =>
        rw [hl] at h
        cases hc : processAny env fuel
            { ctx with current_node := ctx.current_node + 1 }
            (WalkTask.children children) with
        | error e =>
          rw [hc] at h
          exact absurd h (by simp)
        | ok r =>
          rw [hc] at h
          simp only [Except.ok.injEq, Prod.mk.injEq] at h
          rw [← h.1]
      | some v =>
        rw [hl] at h
        cases hc : processAny env fuel
            { ctx with current_node := ctx.current_node + 1,
                       current_speed := (env.parse_f32 v).getD 1 }
            (WalkTask.children children) with
        | error e =>
          rw [hc] at h
          exact absurd h (by simp)
        | ok r =>
          rw [hc] at h
          simp only [Except.ok.injEq, Prod.mk.injEq] at h
          rw [← h.1]
    · intro htag
      rw [htag] at h
      simp only [String.reduceEq, reduceIte] at h
      cases hl : lookup_attr attrs "value" with
      | none =>
        rw [hl] at h
        cases hc : processAny env fuel
            { ctx with current_node := ctx.current_node + 1 }
            (WalkTask.children children) with
        | error e =>
          rw [hc] at h
          exact absurd h (by simp)
        | ok r =>
          rw [hc] at h
          simp only [Except.ok.injEq, Prod.mk.injEq] at h
          rw [← h.1]
      | some v =>
        rw [hl] at h
        cases hc : processAny env fuel
            { ctx with current_node := ctx.current_node + 1,
                       current_voice :=
                         if (List.lookup v get_voices).isSome then v else v }
            (WalkTask.children children) with
        | error e =>
          rw [hc] at h
          exact absurd h (by simp)
        | ok r =>
          rw [hc] at h
          simp only [Except.ok.injEq, Prod.mk.injEq] at h
          rw [← h.1]

/-- Witness for C2: a `speed value="2"` element over a speed-1 context
evaluates successfully and hands back a context whose speed is again 1. -/
theorem process_node_scoped_restore_witness :
    process_node envW 2 ctxW (DomNode.elem "speed" [("value", "2")] []) =
      Except.ok ({ ctxW with current_node := 1 }, []) ∧
    ({ ctxW with current_node := 1 } : ScriptToAudioContext).current_speed =
      ctxW.current_speed :=
  ⟨rfl, (process_node_scoped_restore envW 2 ctxW "speed" [("value", "2")] []
      { ctxW with current_node := 1 } [] rfl).1 rfl⟩
